import Mathlib

/-!
Verification of the Top-N-functions profiling aggregator, the watcher
field-listing HTTP route, and the workpad `loadWorkpad` route action.

Source-derived definitions keep the names of the original functions where
possible.  JavaScript `Map` objects (which iterate in insertion order) are
embedded as association lists; JavaScript numbers that carry exact sample
counts are embedded as rationals.
-/

namespace TopN

abbrev FrameGroupID := String
abbrev StackTraceID := String
abbrev StackFrameID := String
abbrev FileID := String

/-- A stack trace: parallel arrays of per-frame data, leaf at the last index. -/
structure StackTrace where
  FrameIDs : List StackFrameID
  FileIDs : List FileID
  AddressOrLines : List Nat
  Types : List Nat
deriving DecidableEq, Repr

/-- Modelled from the spec: per-frame metadata record of the external
`profiling` module (inline flag, function name, function offset, source line
number, source file name). -/
structure StackFrame where
  FileName : String
  FunctionName : String
  FunctionOffset : Nat
  LineNumber : Nat
  Inline : Bool
deriving DecidableEq, Repr

/-- Modelled from the spec: the external executable record maps a file id to
its file name. -/
structure Executable where
  FileName : String
deriving DecidableEq, Repr

/-- Modelled from the spec: the well-defined empty stack-trace placeholder
used when an event has no stack trace. -/
def emptyStackTrace : StackTrace := ⟨[], [], [], []⟩

/-- Modelled from the spec: the empty stack-frame placeholder. -/
def emptyStackFrame : StackFrame := ⟨"", "", 0, 0, false⟩

/-- Modelled from the spec: the empty executable placeholder. -/
def emptyExecutable : Executable := ⟨""⟩

/-- Modelled from the spec: the metadata captured for a frame group when it is
first seen (the external `createStackFrameMetadata` of the profiling module). -/
structure StackFrameMetadata where
  FrameID : StackFrameID
  FileID : FileID
  AddressOrLine : Nat
  FrameType : Nat
  Inline : Bool
  FunctionName : String
  FunctionOffset : Nat
  SourceLine : Nat
  SourceFilename : String
  ExeFileName : String
deriving DecidableEq, Repr

/-- Modelled from the spec: the external `createStackFrameMetadata` factory;
it records exactly the fields the call site passes. -/
def createStackFrameMetadata (frameID : StackFrameID) (fileID : FileID)
    (addressOrLine : Nat) (frameType : Nat) (inl : Bool) (functionName : String)
    (functionOffset : Nat) (sourceLine : Nat) (sourceFilename : String)
    (exeFileName : String) : StackFrameMetadata :=
  ⟨frameID, fileID, addressOrLine, frameType, inl, functionName, functionOffset,
    sourceLine, sourceFilename, exeFileName⟩

/-- Modelled from the spec: `createFrameGroupID` is external; the spec says it
is a derived identity per unique (fileID, addressOrLine, executable file name,
frame file name, function name) tuple, compared lexicographically on its
string form.  We use an injective string encoding of the tuple. -/
def createFrameGroupID (fileID : FileID) (addressOrLine : Nat)
    (exeFileName : String) (sourceFilename : String) (functionName : String) :
    FrameGroupID :=
  fileID ++ ";" ++ toString addressOrLine ++ ";" ++ exeFileName ++ ";" ++
    sourceFilename ++ ";" ++ functionName

/-- Modelled from the spec: the external `calculateImpactEstimates`
sub-algorithm takes exclusive count, inclusive count, total sample count and
total seconds; its internal formulas are outside this excerpt, so the record
carries its inputs. -/
structure ImpactEstimates where
  countExclusive : ℚ
  countInclusive : ℚ
  totalSamples : ℚ
  totalSeconds : ℚ
deriving DecidableEq, Repr

/-- Modelled from the spec: the external impact-estimate computation. -/
def calculateImpactEstimates (countExclusive countInclusive totalSamples
    totalSeconds : ℚ) : ImpactEstimates :=
  ⟨countExclusive, countInclusive, totalSamples, totalSeconds⟩

/-- One accumulator entry of the `topNFunctions` map. -/
structure TopNFunctionAndFrameGroup where
  Frame : StackFrameMetadata
  FrameGroupID : FrameGroupID
  CountExclusive : ℚ
  CountInclusive : ℚ
deriving DecidableEq, Repr

/-- One returned row of the report. -/
structure TopNFunction where
  Id : String
  Rank : Nat
  Frame : StackFrameMetadata
  CountExclusive : ℚ
  CountInclusive : ℚ
  selfCPUPerc : ℚ
  totalCPUPerc : ℚ
  impactEstimates : Option ImpactEstimates
deriving DecidableEq, Repr

/-- The full report returned by `createTopNFunctions`. -/
structure TopNFunctions where
  TotalCount : ℚ
  TopN : List TopNFunction
  SamplingRate : ℚ
  impactEstimates : Option ImpactEstimates
  selfCPUPerc : ℚ
  totalCPUPerc : ℚ
deriving DecidableEq, Repr

/-- Association-list embedding of a JavaScript `Map` lookup (`Map.get`). -/
def lookupAL {β : Type} : List (String × β) → String → Option β
  | [], _ => none
  | p :: ps, k => if p.1 = k then some p.2 else lookupAL ps k

/-- First entry of the accumulator with the given frame-group id
(`topNFunctions.get(frameGroupID)`). -/
def findGroup : List TopNFunctionAndFrameGroup → FrameGroupID →
    Option TopNFunctionAndFrameGroup
  | [], _ => none
  | e :: es, g => if e.FrameGroupID = g then some e else findGroup es g

/-- In-place mutation of the map entry with the given id (the JavaScript code
mutates the object aliased in the `Map`). -/
def updateGroup : List TopNFunctionAndFrameGroup → FrameGroupID →
    (TopNFunctionAndFrameGroup → TopNFunctionAndFrameGroup) →
    List TopNFunctionAndFrameGroup
  | [], _, _ => []
  | e :: es, g, f => if e.FrameGroupID = g then f e :: es else e :: updateGroup es g f

/-- The `topNFunctions.set(frameGroupID, ...)` step: append a fresh
zero-count entry when the id is absent. -/
def ensureGroup (l : List TopNFunctionAndFrameGroup) (g : FrameGroupID)
    (meta : StackFrameMetadata) : List TopNFunctionAndFrameGroup :=
  match findGroup l g with
  | some _ => l
  | none => l ++ [⟨meta, g, 0, 0⟩]

/-- `topNFunction.CountInclusive += scaledCount` -/
def addIncl (c : ℚ) (e : TopNFunctionAndFrameGroup) : TopNFunctionAndFrameGroup :=
  { e with CountInclusive := e.CountInclusive + c }

/-- `topNFunction.CountExclusive += scaledCount` -/
def addExcl (c : ℚ) (e : TopNFunctionAndFrameGroup) : TopNFunctionAndFrameGroup :=
  { e with CountExclusive := e.CountExclusive + c }

/-- The frame-group id computed at position `i` of a stack trace. -/
def frameGroupAt (stackFrames : List (StackFrameID × StackFrame))
    (executables : List (FileID × Executable)) (stackTrace : StackTrace)
    (i : Nat) : FrameGroupID :=
  let fileID := stackTrace.FileIDs.getD i ""
  let frame := (lookupAL stackFrames (stackTrace.FrameIDs.getD i "")).getD emptyStackFrame
  let executable := (lookupAL executables fileID).getD emptyExecutable
  createFrameGroupID fileID (stackTrace.AddressOrLines.getD i 0)
    executable.FileName frame.FileName frame.FunctionName

/-- The metadata captured for the frame at position `i` of a stack trace. -/
def metadataAt (stackFrames : List (StackFrameID × StackFrame))
    (executables : List (FileID × Executable)) (stackTrace : StackTrace)
    (i : Nat) : StackFrameMetadata :=
  let frameID := stackTrace.FrameIDs.getD i ""
  let fileID := stackTrace.FileIDs.getD i ""
  let frame := (lookupAL stackFrames frameID).getD emptyStackFrame
  let executable := (lookupAL executables fileID).getD emptyExecutable
  createStackFrameMetadata frameID fileID (stackTrace.AddressOrLines.getD i 0)
    (stackTrace.Types.getD i 0) frame.Inline frame.FunctionName
    frame.FunctionOffset frame.LineNumber frame.FileName executable.FileName

/-- State of the inner frame loop: the global accumulator map plus the
per-event `uniqueFrameGroupsPerEvent` set. -/
structure TopNAcc where
  entries : List TopNFunctionAndFrameGroup
  seen : List FrameGroupID
deriving Repr

/-- The map contents after the `topNFunction === undefined` check of the loop
body: the entry for the frame group at position `i` surely exists. -/
def ensuredEntries (stackFrames : List (StackFrameID × StackFrame))
    (executables : List (FileID × Executable)) (stackTrace : StackTrace)
    (acc : TopNAcc) (i : Nat) : List TopNFunctionAndFrameGroup :=
  ensureGroup acc.entries (frameGroupAt stackFrames executables stackTrace i)
    (metadataAt stackFrames executables stackTrace i)

/-- The map contents after the `uniqueFrameGroupsPerEvent` check of the loop
body: the inclusive count was bumped unless the group was already seen in
this event. -/
def inclUpdatedEntries (stackFrames : List (StackFrameID × StackFrame))
    (executables : List (FileID × Executable)) (stackTrace : StackTrace)
    (scaledCount : ℚ) (acc : TopNAcc) (i : Nat) :
    List TopNFunctionAndFrameGroup :=
  if frameGroupAt stackFrames executables stackTrace i ∈ acc.seen then
    ensuredEntries stackFrames executables stackTrace acc i
  else
    updateGroup (ensuredEntries stackFrames executables stackTrace acc i)
      (frameGroupAt stackFrames executables stackTrace i) (addIncl scaledCount)

/-- One iteration of the inner frame loop of `createTopNFunctions` at index
`i` of the stack trace: ensure the entry exists, bump the inclusive count at
the first occurrence within the event, and bump the exclusive count at the
leaf index. -/
def stepFrame (stackFrames : List (StackFrameID × StackFrame))
    (executables : List (FileID × Executable)) (stackTrace : StackTrace)
    (scaledCount : ℚ) (acc : TopNAcc) (i : Nat) : TopNAcc where
  entries :=
    if i = stackTrace.FrameIDs.length - 1 then
      updateGroup (inclUpdatedEntries stackFrames executables stackTrace scaledCount acc i)
        (frameGroupAt stackFrames executables stackTrace i) (addExcl scaledCount)
    else inclUpdatedEntries stackFrames executables stackTrace scaledCount acc i
  seen :=
    if frameGroupAt stackFrames executables stackTrace i ∈ acc.seen then acc.seen
    else acc.seen ++ [frameGroupAt stackFrames executables stackTrace i]

/-- The whole inner frame loop for one event: fold `stepFrame` over the index
range of the trace, starting from a fresh per-event set. -/
def accumTrace (stackFrames : List (StackFrameID × StackFrame))
    (executables : List (FileID × Executable)) (stackTrace : StackTrace)
    (scaledCount : ℚ) (entries : List TopNFunctionAndFrameGroup) :
    List TopNFunctionAndFrameGroup :=
  ((List.range stackTrace.FrameIDs.length).foldl
    (stepFrame stackFrames executables stackTrace scaledCount)
    ⟨entries, []⟩).entries

/-- One iteration of the outer event loop: scale the count, add it to the
running total, and accumulate the event's stack trace. -/
def processEvent (scalingFactor : ℚ)
    (stackTraces : List (StackTraceID × StackTrace))
    (stackFrames : List (StackFrameID × StackFrame))
    (executables : List (FileID × Executable))
    (st : ℚ × List TopNFunctionAndFrameGroup) (ev : StackTraceID × ℚ) :
    ℚ × List TopNFunctionAndFrameGroup :=
  let scaledCount := ev.2 * scalingFactor
  let stackTrace := (lookupAL stackTraces ev.1).getD emptyStackTrace
  (st.1 + scaledCount,
    accumTrace stackFrames executables stackTrace scaledCount st.2)

/-- Ascending comparator used by `topN.sort`: by exclusive count, ties by
lexicographic frame-group id. -/
def ascLe (a b : TopNFunctionAndFrameGroup) : Prop :=
  a.CountExclusive < b.CountExclusive ∨
    (a.CountExclusive = b.CountExclusive ∧ a.FrameGroupID ≤ b.FrameGroupID)

instance : DecidableRel ascLe := fun a b => by
  unfold ascLe; infer_instance

instance : IsTotal TopNFunctionAndFrameGroup ascLe where
  total a b := by
    unfold ascLe
    rcases lt_trichotomy a.CountExclusive b.CountExclusive with h | h | h
    · exact Or.inl (Or.inl h)
    · rcases le_total a.FrameGroupID b.FrameGroupID with h2 | h2
      · exact Or.inl (Or.inr ⟨h, h2⟩)
      · exact Or.inr (Or.inr ⟨h.symm, h2⟩)
    · exact Or.inr (Or.inl h)

instance : IsTrans TopNFunctionAndFrameGroup ascLe where
  trans a b c hab hbc := by
    unfold ascLe at *
    rcases hab with h1 | ⟨h1, h1'⟩ <;> rcases hbc with h2 | ⟨h2, h2'⟩
    · exact Or.inl (h1.trans h2)
    · exact Or.inl (h2 ▸ h1)
    · exact Or.inl (h1 ▸ h2)
    · exact Or.inr ⟨h1.trans h2, h1'.trans h2'⟩

/-- The sort used by the source: stable ascending sort by `ascLe`, then
`reverse` (`topN.sort(cmp).reverse()`). -/
def sortTopN (l : List TopNFunctionAndFrameGroup) :
    List TopNFunctionAndFrameGroup :=
  (l.insertionSort ascLe).reverse

/-- `Array.prototype.map((x, i) => ...)` with explicit start index. -/
def mapIndexedFrom {α β : Type} (f : Nat → α → β) : Nat → List α → List β
  | _, [] => []
  | k, a :: as => f k a :: mapIndexedFrom f (k + 1) as

/-- `Array.prototype.map((x, i) => ...)`. -/
def mapIndexed {α β : Type} (f : Nat → α → β) (l : List α) : List β :=
  mapIndexedFrom f 0 l

/-- Builds one returned row from the `i`-th entry of the page slice. -/
def makeRow (totalCount totalSeconds : ℚ) (i : Nat)
    (frameAndCount : TopNFunctionAndFrameGroup) : TopNFunction :=
  let countExclusive := frameAndCount.CountExclusive
  let countInclusive := frameAndCount.CountInclusive
  let totalCPUPerc := countInclusive / totalCount * 100
  let selfCPUPerc := countExclusive / totalCount * 100
  let impactEstimates :=
    if totalSeconds > 0 then
      some (calculateImpactEstimates countExclusive countInclusive totalCount
        totalSeconds)
    else none
  { Id := frameAndCount.FrameGroupID, Rank := i + 1,
    Frame := frameAndCount.Frame, CountExclusive := countExclusive,
    CountInclusive := countInclusive, selfCPUPerc := selfCPUPerc,
    totalCPUPerc := totalCPUPerc, impactEstimates := impactEstimates }

/-- The input record of `createTopNFunctions`. -/
structure TopNFunctionsInput where
  endIndex : Nat
  events : List (StackTraceID × ℚ)
  executables : List (FileID × Executable)
  samplingRate : ℚ
  stackFrames : List (StackFrameID × StackFrame)
  stackTraces : List (StackTraceID × StackTrace)
  startIndex : Nat
  totalSeconds : ℚ

/-- The accumulator contents after the event loop, paired with `totalCount`. -/
def accumulate (inp : TopNFunctionsInput) : ℚ × List TopNFunctionAndFrameGroup :=
  inp.events.foldl
    (processEvent (1 / inp.samplingRate) inp.stackTraces inp.stackFrames
      inp.executables)
    (0, [])

/-- The ranked sequence: all accumulator entries after the sort-then-reverse
step. -/
def rankedEntries (inp : TopNFunctionsInput) : List TopNFunctionAndFrameGroup :=
  sortTopN (accumulate inp).2

/-- The Top-N-functions aggregator (`createTopNFunctions`). -/
def createTopNFunctions (inp : TopNFunctionsInput) : TopNFunctions :=
  let totalCount := (accumulate inp).1
  let topN := rankedEntries inp
  let startIndex := if inp.startIndex > topN.length then topN.length else inp.startIndex
  let endIndex := if inp.endIndex > topN.length then topN.length else inp.endIndex
  let framesAndCountsAndIds :=
    mapIndexed (makeRow totalCount inp.totalSeconds)
      ((topN.drop startIndex).take (endIndex - startIndex))
  let sumSelfCPU := (framesAndCountsAndIds.map (·.CountExclusive)).sum
  let selfCPUPerc := sumSelfCPU / totalCount * 100
  let sumTotalCPU := (framesAndCountsAndIds.map (·.CountInclusive)).sum
  let totalCPUPerc := sumTotalCPU / totalCount * 100
  let impactEstimates :=
    if inp.totalSeconds > 0 then
      some (calculateImpactEstimates sumSelfCPU sumTotalCPU totalCount
        inp.totalSeconds)
    else none
  { TotalCount := totalCount, TopN := framesAndCountsAndIds,
    SamplingRate := inp.samplingRate, impactEstimates := impactEstimates,
    selfCPUPerc := selfCPUPerc, totalCPUPerc := totalCPUPerc }

/-- The inclusive count the accumulator records for a frame-group id (`0` when
the id has no entry). -/
def inclOf (l : List TopNFunctionAndFrameGroup) (g : FrameGroupID) : ℚ :=
  match findGroup l g with
  | some e => e.CountInclusive
  | none => 0

/-- The exclusive count the accumulator records for a frame-group id (`0` when
the id has no entry). -/
def exclOf (l : List TopNFunctionAndFrameGroup) (g : FrameGroupID) : ℚ :=
  match findGroup l g with
  | some e => e.CountExclusive
  | none => 0

/-- The frame-group ids of the accumulator entries, in insertion order. -/
def keysOf (l : List TopNFunctionAndFrameGroup) : List FrameGroupID :=
  l.map (·.FrameGroupID)

/-- Modelled from the spec: the single descending comparator the spec
contrasts with the source's two-step sort — descending by exclusive count,
ties broken by descending lexicographic FrameGroupID string. -/
def descLe (a b : TopNFunctionAndFrameGroup) : Prop :=
  b.CountExclusive < a.CountExclusive ∨
    (a.CountExclusive = b.CountExclusive ∧ b.FrameGroupID ≤ a.FrameGroupID)

instance : DecidableRel descLe := fun a b => by
  unfold descLe; infer_instance

instance : IsTotal TopNFunctionAndFrameGroup descLe where
  total a b := by
    unfold descLe
    rcases lt_trichotomy a.CountExclusive b.CountExclusive with h | h | h
    · exact Or.inr (Or.inl h)
    · rcases le_total a.FrameGroupID b.FrameGroupID with h2 | h2
      · exact Or.inr (Or.inr ⟨h.symm, h2⟩)
      · exact Or.inl (Or.inr ⟨h, h2⟩)
    · exact Or.inl (Or.inl h)

instance : IsTrans TopNFunctionAndFrameGroup descLe where
  trans a b c hab hbc := by
    unfold descLe at *
    rcases hab with h1 | ⟨h1, h1'⟩ <;> rcases hbc with h2 | ⟨h2, h2'⟩
    · exact Or.inl (h2.trans h1)
    · exact Or.inl (h2 ▸ h1)
    · exact Or.inl (h1 ▸ h2)
    · exact Or.inr ⟨h1.trans h2, h2'.trans h1'⟩

/-- Modelled from the spec: sorting with the single descending comparator, to
be compared with the source's ascending-sort-then-reverse procedure. -/
def specSortDescending (l : List TopNFunctionAndFrameGroup) :
    List TopNFunctionAndFrameGroup :=
  l.insertionSort descLe

/-- Concrete stack trace with three pairwise-distinct frame groups, leaf last. -/
def traceABC : StackTrace :=
  { FrameIDs := ["fA", "fB", "fC"], FileIDs := ["a", "b", "c"],
    AddressOrLines := [1, 2, 3], Types := [0, 0, 0] }

/-- The frame-group id of frame `A` of `traceABC`. -/
def fgA : FrameGroupID := frameGroupAt [] [] traceABC 0

/-- The frame-group id of frame `B` of `traceABC`. -/
def fgB : FrameGroupID := frameGroupAt [] [] traceABC 1

/-- The frame-group id of frame `C` of `traceABC` (the leaf). -/
def fgC : FrameGroupID := frameGroupAt [] [] traceABC 2

/-- Concrete input: one stack trace `[A, B, C]`, `events = (T1, 10)`,
`samplingRate = 1`, full page, `totalSeconds = 0`. -/
def inpC1 : TopNFunctionsInput :=
  { endIndex := 3, events := [("T1", 10)], executables := [],
    samplingRate := 1, stackFrames := [], stackTraces := [("T1", traceABC)],
    startIndex := 0, totalSeconds := 0 }

/-- Concrete stack trace whose frames are `[A, A, B]` (leaf `B`). -/
def traceAAB : StackTrace :=
  { FrameIDs := ["fA", "fA", "fB"], FileIDs := ["a", "a", "b"],
    AddressOrLines := [1, 1, 2], Types := [0, 0, 0] }

/-- Concrete input: one stack trace `[A, A, B]`, `events = (T1, 5)`,
`samplingRate = 1`. -/
def inpC2 : TopNFunctionsInput :=
  { endIndex := 2, events := [("T1", 5)], executables := [],
    samplingRate := 1, stackFrames := [], stackTraces := [("T1", traceAAB)],
    startIndex := 0, totalSeconds := 0 }

/-- Concrete stack trace `[A, B]` (leaf `B`) for the scaling test. -/
def traceAB : StackTrace :=
  { FrameIDs := ["fA", "fB"], FileIDs := ["a", "b"],
    AddressOrLines := [1, 2], Types := [0, 0] }

/-- Concrete input: `events = (T1, 3)` and `samplingRate = 0.5`. -/
def inpC3 : TopNFunctionsInput :=
  { endIndex := 2, events := [("T1", 3)], executables := [],
    samplingRate := 1 / 2, stackFrames := [], stackTraces := [("T1", traceAB)],
    startIndex := 0, totalSeconds := 0 }

/-- Concrete input with five ranked entries (five one-frame traces) and the
out-of-range page `startIndex = 10`, `endIndex = 20`. -/
def inpC5 : TopNFunctionsInput :=
  { endIndex := 20,
    events := [("T1", 1), ("T2", 2), ("T3", 3), ("T4", 4), ("T5", 5)],
    executables := [], samplingRate := 1, stackFrames := [],
    stackTraces :=
      [("T1", ⟨["f1"], ["a"], [1], [0]⟩), ("T2", ⟨["f2"], ["b"], [2], [0]⟩),
       ("T3", ⟨["f3"], ["c"], [3], [0]⟩), ("T4", ⟨["f4"], ["d"], [4], [0]⟩),
       ("T5", ⟨["f5"], ["e"], [5], [0]⟩)],
    startIndex := 10, totalSeconds := 0 }

/-- Concrete input with a positive window duration. -/
def inpC6pos : TopNFunctionsInput :=
  { inpC1 with totalSeconds := 30 }

/-- A concrete accumulator entry used to instantiate sorting theorems. -/
def entryX : TopNFunctionAndFrameGroup :=
  { Frame := createStackFrameMetadata "fX" "x" 1 0 false "" 0 0 "" "",
    FrameGroupID := "x;1;;;", CountExclusive := 2, CountInclusive := 2 }

/-- A second concrete accumulator entry with the same exclusive count and a
different frame-group id. -/
def entryY : TopNFunctionAndFrameGroup :=
  { Frame := createStackFrameMetadata "fY" "y" 1 0 false "" 0 0 "" "",
    FrameGroupID := "y;1;;;", CountExclusive := 2, CountInclusive := 3 }

end TopN

namespace Watcher

/-- Minimal JSON values: the shapes the route handler inspects or builds. -/
inductive Json where
  | null : Json
  | bool (b : Bool) : Json
  | num (n : Int) : Json
  | str (s : String) : Json
  | arr (elems : List Json) : Json
  | obj (members : List (String × Json)) : Json

/-- First member of a JSON object member list with the given key. -/
def findMember : List (String × Json) → String → Option Json
  | [], _ => none
  | m :: ms, k => if m.1 = k then some m.2 else findMember ms k

/-- JavaScript property read `j.k` (undefined when absent or not an object). -/
def Json.getField : Json → String → Option Json
  | .obj ms, k => findMember ms k
  | _, _ => none

/-- The strict comparison `x === 404` applied to an optional JSON property. -/
def isNum404 : Option Json → Bool
  | some (.num n) => n == 404
  | _ => false

/-- Modelled from the spec: the external `Fields` domain model built by
`Fields.fromUpstreamJson`; its transformation rules live outside this excerpt,
so the model records the upstream JSON it was built from. -/
structure Fields where
  upstream : Json

/-- Modelled from the spec: the field-domain-model constructor from upstream
JSON. -/
def Fields.fromUpstreamJson (j : Json) : Fields := ⟨j⟩

/-- Modelled from the spec: the model's downstream JSON rendering, opaque to
this excerpt. -/
structure DownstreamFieldsJson where
  ofModel : Fields

/-- Modelled from the spec: the `downstreamJson` rendering of a `Fields`
model. -/
def Fields.downstreamJson (f : Fields) : DownstreamFieldsJson := ⟨f⟩

/-- An error thrown by the search client.  `recognized` records the verdict of
the external `isEsError` predicate on it. -/
structure EsClientError where
  statusCode : Int
  message : String
  recognized : Bool

/-- Modelled from the spec: the external recognizer for search-engine
errors. -/
def isEsError (e : EsClientError) : Bool := e.recognized

/-- Result of awaiting `fetchFields`: either a cluster response or a thrown
error. -/
inductive FetchOutcome where
  | ok (resp : Json)
  | thrown (e : EsClientError)

/-- Body of an HTTP response produced by the handler. -/
inductive ResponseBody where
  | fields (d : DownstreamFieldsJson)
  | errorMessage (message : String)

/-- Observable outcome of the route handler: an HTTP response, or an error it
rethrows to the framework. -/
inductive RouteResult where
  | response (statusCode : Int) (body : ResponseBody)
  | rethrown (e : EsClientError)

/-- The body of the `POST /api/watcher/fields` handler registered by
`registerListFieldsRoute`, as a function of the field-capabilities call's
outcome. -/
def listFieldsHandler (outcome : FetchOutcome) : RouteResult :=
  match outcome with
  | .ok fieldsResponse =>
    let json :=
      if isNum404 (fieldsResponse.getField "status") then
        Json.obj [("fields", Json.arr [])]
      else fieldsResponse
    .response 200 (.fields (Fields.downstreamJson (Fields.fromUpstreamJson json)))
  | .thrown e =>
    if isEsError e then .response e.statusCode (.errorMessage e.message)
    else .rethrown e

end Watcher

namespace Workpad

/-- Numeric value of a list of decimal digit characters. -/
def digitsVal (ds : List Char) : Nat :=
  ds.foldl (fun a c => a * 10 + (c.toNat - 48)) 0

/-- Leading-decimal-digit parse: `none` when the input does not start with a
digit. -/
def parseDigits (cs : List Char) : Option Nat :=
  let ds := cs.takeWhile Char.isDigit
  if ds.isEmpty then none else some (digitsVal ds)

/-- Sign handling of JavaScript `parseInt`. -/
def parseSigned : List Char → Option Int
  | '-' :: rest => (parseDigits rest).map (fun n => -(n : Int))
  | '+' :: rest => (parseDigits rest).map (fun n => (n : Int))
  | cs => (parseDigits cs).map (fun n => (n : Int))

/-- JavaScript `parseInt(x, 10)` on an optional string route parameter:
leading whitespace skipped, optional sign, leading decimal digits; `none`
stands for `NaN`. -/
def parseInt10 : Option String → Option Int
  | none => none
  | some s => parseSigned (s.data.dropWhile (fun c => c = ' '))

/-- The slice of workpad state the route action reads: its id and its
zero-based current page index. -/
structure WorkpadState where
  id : String
  page : Int
deriving DecidableEq, Repr

/-- A fetched workpad record split into its assets and the remaining workpad
fields. -/
structure FetchedWorkpad where
  assets : List String
  workpad : WorkpadState
deriving DecidableEq, Repr

/-- State updates the action can dispatch. -/
inductive Dispatch where
  | setAssets (assets : List String)
  | setWorkpad (w : WorkpadState)
  | gotoPage (pageIndex : Int)
deriving DecidableEq, Repr

/-- Navigation outcome of the action. -/
inductive NavResult where
  | redirectHome
  | redirectLoadWorkpad (id : String) (page : Int)
  | completed
deriving DecidableEq, Repr

/-- The `loadWorkpad` route action: `fetched` is the result the workpad
service would return for `paramsId` (consulted only when the id differs from
the current workpad's).  Returns the dispatched state updates in order and
the navigation outcome. -/
def loadWorkpadAction (fetched : Option FetchedWorkpad) (paramsId : String)
    (paramsPage : Option String) (currentWorkpad : WorkpadState) :
    List Dispatch × NavResult :=
  let step :=
    if paramsId ≠ currentWorkpad.id then
      match fetched with
      | none => none
      | some fw =>
        some ([Dispatch.setAssets fw.assets, Dispatch.setWorkpad fw.workpad],
          fw.workpad)
    else some ([], currentWorkpad)
  match step with
  | none => ([], NavResult.redirectHome)
  | some (dispatches, workpad) =>
    match parseInt10 paramsPage with
    | none =>
      (dispatches, NavResult.redirectLoadWorkpad workpad.id (workpad.page + 1))
    | some pageNumber =>
      let pageIndex := pageNumber - 1
      if pageIndex ≠ workpad.page then
        (dispatches ++ [Dispatch.gotoPage pageIndex], NavResult.completed)
      else (dispatches, NavResult.completed)

end Workpad

/-! ## Helper lemmas: accumulator accessors -/

namespace TopN

theorem findGroup_append_of_eq_none (l₁ l₂ : List TopNFunctionAndFrameGroup)
    (g : FrameGroupID) (h : findGroup l₁ g = none) :
    findGroup (l₁ ++ l₂) g = findGroup l₂ g := by
  induction l₁ with
  | nil => simp
  | cons e es ih =>
    by_cases he : e.FrameGroupID = g
    · simp [findGroup, he] at h
    · simp only [findGroup, he, if_false, List.cons_append] at h ⊢
      exact ih h

theorem findGroup_append_of_eq_some (l₁ l₂ : List TopNFunctionAndFrameGroup)
    (g : FrameGroupID) (e₀ : TopNFunctionAndFrameGroup)
    (h : findGroup l₁ g = some e₀) :
    findGroup (l₁ ++ l₂) g = some e₀ := by
  induction l₁ with
  | nil => simp [findGroup] at h
  | cons e es ih =>
    by_cases he : e.FrameGroupID = g
    · simp only [findGroup, he, if_true] at h ⊢
      simpa using h
    · simp only [findGroup, he, if_false, List.cons_append] at h ⊢
      exact ih h

theorem inclOf_ensureGroup (l : List TopNFunctionAndFrameGroup)
    (g' : FrameGroupID) (m : StackFrameMetadata) (g : FrameGroupID) :
    inclOf (ensureGroup l g' m) g = inclOf l g := by
  unfold ensureGroup
  cases h : findGroup l g' with
  | some e => rfl
  | none =>
    by_cases hg : g' = g
    · subst hg
      unfold inclOf
      rw [findGroup_append_of_eq_none _ _ _ h, h]
      simp [findGroup]
    · unfold inclOf
      cases h2 : findGroup l g with
      | some e => rw [findGroup_append_of_eq_some _ _ _ _ h2]
      | none =>
        rw [findGroup_append_of_eq_none _ _ _ h2]
        simp [findGroup, hg]

theorem exclOf_ensureGroup (l : List TopNFunctionAndFrameGroup)
    (g' : FrameGroupID) (m : StackFrameMetadata) (g : FrameGroupID) :
    exclOf (ensureGroup l g' m) g = exclOf l g := by
  unfold ensureGroup
  cases h : findGroup l g' with
  | some e => rfl
  | none =>
    by_cases hg : g' = g
    · subst hg
      unfold exclOf
      rw [findGroup_append_of_eq_none _ _ _ h, h]
      simp [findGroup]
    · unfold exclOf
      cases h2 : findGroup l g with
      | some e => rw [findGroup_append_of_eq_some _ _ _ _ h2]
      | none =>
        rw [findGroup_append_of_eq_none _ _ _ h2]
        simp [findGroup, hg]

theorem findGroup_ensureGroup_self_isSome (l : List TopNFunctionAndFrameGroup)
    (g : FrameGroupID) (m : StackFrameMetadata) :
    (findGroup (ensureGroup l g m) g).isSome = true := by
  unfold ensureGroup
  cases h : findGroup l g with
  | some e => simp [h]
  | none =>
    rw [findGroup_append_of_eq_none _ _ _ h]
    simp [findGroup]

theorem inclOf_nil (g : FrameGroupID) : inclOf [] g = 0 := rfl

theorem inclOf_cons (e : TopNFunctionAndFrameGroup)
    (es : List TopNFunctionAndFrameGroup) (g : FrameGroupID) :
    inclOf (e :: es) g =
      if e.FrameGroupID = g then e.CountInclusive else inclOf es g := by
  by_cases h : e.FrameGroupID = g <;> simp [inclOf, findGroup, h]

theorem exclOf_nil (g : FrameGroupID) : exclOf [] g = 0 := rfl

theorem exclOf_cons (e : TopNFunctionAndFrameGroup)
    (es : List TopNFunctionAndFrameGroup) (g : FrameGroupID) :
    exclOf (e :: es) g =
      if e.FrameGroupID = g then e.CountExclusive else exclOf es g := by
  by_cases h : e.FrameGroupID = g <;> simp [exclOf, findGroup, h]

theorem findGroup_updateGroup_isSome (l : List TopNFunctionAndFrameGroup)
    (g' g : FrameGroupID)
    (f : TopNFunctionAndFrameGroup → TopNFunctionAndFrameGroup)
    (hid : ∀ e, (f e).FrameGroupID = e.FrameGroupID) :
    (findGroup (updateGroup l g' f) g).isSome = (findGroup l g).isSome := by
  induction l with
  | nil => simp [updateGroup]
  | cons e es ih =>
    by_cases h1 : e.FrameGroupID = g'
    · rw [updateGroup, if_pos h1]
      by_cases h2 : e.FrameGroupID = g <;> simp [findGroup, hid, h2]
    · rw [updateGroup, if_neg h1]
      by_cases h2 : e.FrameGroupID = g <;> simp [findGroup, h2, ih]

theorem inclOf_updateGroup_addIncl_self (l : List TopNFunctionAndFrameGroup)
    (g : FrameGroupID) (c : ℚ) (h : (findGroup l g).isSome = true) :
    inclOf (updateGroup l g (addIncl c)) g = inclOf l g + c := by
  induction l with
  | nil => simp [findGroup] at h
  | cons e es ih =>
    by_cases h1 : e.FrameGroupID = g
    · rw [updateGroup, if_pos h1]
      simp [inclOf_cons, addIncl, h1]
    · rw [updateGroup, if_neg h1]
      simp only [findGroup, if_neg h1] at h
      simp [inclOf_cons, h1, ih h]

theorem inclOf_updateGroup_addIncl_of_ne (l : List TopNFunctionAndFrameGroup)
    (g' g : FrameGroupID) (c : ℚ) (hne : g' ≠ g) :
    inclOf (updateGroup l g' (addIncl c)) g = inclOf l g := by
  induction l with
  | nil => simp [updateGroup]
  | cons e es ih =>
    by_cases h1 : e.FrameGroupID = g'
    · have h2 : ¬e.FrameGroupID = g := fun hh => hne (h1 ▸ hh)
      rw [updateGroup, if_pos h1]
      simp [inclOf_cons, addIncl, h2]
    · rw [updateGroup, if_neg h1]
      simp [inclOf_cons, ih]

theorem exclOf_updateGroup_addExcl_self (l : List TopNFunctionAndFrameGroup)
    (g : FrameGroupID) (c : ℚ) (h : (findGroup l g).isSome = true) :
    exclOf (updateGroup l g (addExcl c)) g = exclOf l g + c := by
  induction l with
  | nil => simp [findGroup] at h
  | cons e es ih =>
    by_cases h1 : e.FrameGroupID = g
    · rw [updateGroup, if_pos h1]
      simp [exclOf_cons, addExcl, h1]
    · rw [updateGroup, if_neg h1]
      simp only [findGroup, if_neg h1] at h
      simp [exclOf_cons, h1, ih h]

theorem exclOf_updateGroup_addExcl_of_ne (l : List TopNFunctionAndFrameGroup)
    (g' g : FrameGroupID) (c : ℚ) (hne : g' ≠ g) :
    exclOf (updateGroup l g' (addExcl c)) g = exclOf l g := by
  induction l with
  | nil => simp [updateGroup]
  | cons e es ih =>
    by_cases h1 : e.FrameGroupID = g'
    · have h2 : ¬e.FrameGroupID = g := fun hh => hne (h1 ▸ hh)
      rw [updateGroup, if_pos h1]
      simp [exclOf_cons, addExcl, h2]
    · rw [updateGroup, if_neg h1]
      simp [exclOf_cons, ih]

theorem exclOf_updateGroup_addIncl (l : List TopNFunctionAndFrameGroup)
    (g' g : FrameGroupID) (c : ℚ) :
    exclOf (updateGroup l g' (addIncl c)) g = exclOf l g := by
  induction l with
  | nil => simp [updateGroup]
  | cons e es ih =>
    by_cases h1 : e.FrameGroupID = g'
    · rw [updateGroup, if_pos h1]
      by_cases h2 : e.FrameGroupID = g <;> simp [exclOf_cons, addIncl, h2]
    · rw [updateGroup, if_neg h1]
      simp [exclOf_cons, ih]

theorem inclOf_updateGroup_addExcl (l : List TopNFunctionAndFrameGroup)
    (g' g : FrameGroupID) (c : ℚ) :
    inclOf (updateGroup l g' (addExcl c)) g = inclOf l g := by
  induction l with
  | nil => simp [updateGroup]
  | cons e es ih =>
    by_cases h1 : e.FrameGroupID = g'
    · rw [updateGroup, if_pos h1]
      by_cases h2 : e.FrameGroupID = g <;> simp [inclOf_cons, addExcl, h2]
    · rw [updateGroup, if_neg h1]
      simp [inclOf_cons, ih]

/-! ## Helper lemmas: one iteration of the frame loop -/

theorem inclOf_ensuredEntries (sf : List (StackFrameID × StackFrame))
    (ex : List (FileID × Executable)) (tr : StackTrace) (acc : TopNAcc)
    (i : Nat) (g : FrameGroupID) :
    inclOf (ensuredEntries sf ex tr acc i) g = inclOf acc.entries g :=
  inclOf_ensureGroup _ _ _ _

theorem exclOf_ensuredEntries (sf : List (StackFrameID × StackFrame))
    (ex : List (FileID × Executable)) (tr : StackTrace) (acc : TopNAcc)
    (i : Nat) (g : FrameGroupID) :
    exclOf (ensuredEntries sf ex tr acc i) g = exclOf acc.entries g :=
  exclOf_ensureGroup _ _ _ _

theorem findGroup_ensuredEntries_self_isSome
    (sf : List (StackFrameID × StackFrame)) (ex : List (FileID × Executable))
    (tr : StackTrace) (acc : TopNAcc) (i : Nat) :
    (findGroup (ensuredEntries sf ex tr acc i)
      (frameGroupAt sf ex tr i)).isSome = true :=
  findGroup_ensureGroup_self_isSome _ _ _

theorem inclOf_inclUpdatedEntries (sf : List (StackFrameID × StackFrame))
    (ex : List (FileID × Executable)) (tr : StackTrace) (sc : ℚ)
    (acc : TopNAcc) (i : Nat) (g : FrameGroupID) :
    inclOf (inclUpdatedEntries sf ex tr sc acc i) g =
      inclOf acc.entries g +
        (if frameGroupAt sf ex tr i = g ∧ frameGroupAt sf ex tr i ∉ acc.seen
         then sc else 0) := by
  unfold inclUpdatedEntries
  by_cases hseen : frameGroupAt sf ex tr i ∈ acc.seen
  · simp [hseen, inclOf_ensuredEntries]
  · by_cases hg : frameGroupAt sf ex tr i = g
    · rw [if_neg hseen, hg,
        inclOf_updateGroup_addIncl_self _ _ _
          (hg ▸ findGroup_ensuredEntries_self_isSome sf ex tr acc i),
        inclOf_ensuredEntries]
      simp [hg, hseen]
      exact (if_neg (hg ▸ hseen)).symm
    · rw [if_neg hseen, inclOf_updateGroup_addIncl_of_ne _ _ _ _ hg,
        inclOf_ensuredEntries]
      simp [hg]

theorem exclOf_inclUpdatedEntries (sf : List (StackFrameID × StackFrame))
    (ex : List (FileID × Executable)) (tr : StackTrace) (sc : ℚ)
    (acc : TopNAcc) (i : Nat) (g : FrameGroupID) :
    exclOf (inclUpdatedEntries sf ex tr sc acc i) g = exclOf acc.entries g := by
  unfold inclUpdatedEntries
  by_cases hseen : frameGroupAt sf ex tr i ∈ acc.seen
  · simp [hseen, exclOf_ensuredEntries]
  · rw [if_neg hseen, exclOf_updateGroup_addIncl, exclOf_ensuredEntries]

theorem findGroup_inclUpdatedEntries_self_isSome
    (sf : List (StackFrameID × StackFrame)) (ex : List (FileID × Executable))
    (tr : StackTrace) (sc : ℚ) (acc : TopNAcc) (i : Nat) :
    (findGroup (inclUpdatedEntries sf ex tr sc acc i)
      (frameGroupAt sf ex tr i)).isSome = true := by
  unfold inclUpdatedEntries
  by_cases hseen : frameGroupAt sf ex tr i ∈ acc.seen
  · rw [if_pos hseen]
    exact findGroup_ensuredEntries_self_isSome sf ex tr acc i
  · rw [if_neg hseen,
      findGroup_updateGroup_isSome _ _ _ (addIncl sc) (fun e => rfl)]
    exact findGroup_ensuredEntries_self_isSome sf ex tr acc i

theorem stepFrame_seen (sf : List (StackFrameID × StackFrame))
    (ex : List (FileID × Executable)) (tr : StackTrace) (sc : ℚ)
    (acc : TopNAcc) (i : Nat) :
    (stepFrame sf ex tr sc acc i).seen =
      if frameGroupAt sf ex tr i ∈ acc.seen then acc.seen
      else acc.seen ++ [frameGroupAt sf ex tr i] := rfl

theorem stepFrame_mem_seen (sf : List (StackFrameID × StackFrame))
    (ex : List (FileID × Executable)) (tr : StackTrace) (sc : ℚ)
    (acc : TopNAcc) (i : Nat) (g : FrameGroupID) :
    (g ∈ (stepFrame sf ex tr sc acc i).seen ↔
      g ∈ acc.seen ∨ frameGroupAt sf ex tr i = g) := by
  rw [stepFrame_seen]
  by_cases hseen : frameGroupAt sf ex tr i ∈ acc.seen
  · rw [if_pos hseen]
    constructor
    · exact Or.inl
    · rintro (h | h)
      · exact h
      · exact h ▸ hseen
  · rw [if_neg hseen]
    simp [eq_comm]

theorem stepFrame_inclOf (sf : List (StackFrameID × StackFrame))
    (ex : List (FileID × Executable)) (tr : StackTrace) (sc : ℚ)
    (acc : TopNAcc) (i : Nat) (g : FrameGroupID) :
    inclOf (stepFrame sf ex tr sc acc i).entries g =
      inclOf acc.entries g +
        (if frameGroupAt sf ex tr i = g ∧ frameGroupAt sf ex tr i ∉ acc.seen
         then sc else 0) := by
  show inclOf
      (if i = tr.FrameIDs.length - 1 then
        updateGroup (inclUpdatedEntries sf ex tr sc acc i)
          (frameGroupAt sf ex tr i) (addExcl sc)
      else inclUpdatedEntries sf ex tr sc acc i) g = _
  by_cases hleaf : i = tr.FrameIDs.length - 1
  · rw [if_pos hleaf, inclOf_updateGroup_addExcl, inclOf_inclUpdatedEntries]
  · rw [if_neg hleaf, inclOf_inclUpdatedEntries]

theorem stepFrame_exclOf (sf : List (StackFrameID × StackFrame))
    (ex : List (FileID × Executable)) (tr : StackTrace) (sc : ℚ)
    (acc : TopNAcc) (i : Nat) (g : FrameGroupID) :
    exclOf (stepFrame sf ex tr sc acc i).entries g =
      exclOf acc.entries g +
        (if i = tr.FrameIDs.length - 1 ∧ frameGroupAt sf ex tr i = g
         then sc else 0) := by
  show exclOf
      (if i = tr.FrameIDs.length - 1 then
        updateGroup (inclUpdatedEntries sf ex tr sc acc i)
          (frameGroupAt sf ex tr i) (addExcl sc)
      else inclUpdatedEntries sf ex tr sc acc i) g = _
  by_cases hleaf : i = tr.FrameIDs.length - 1
  · rw [if_pos hleaf]
    by_cases hg : frameGroupAt sf ex tr i = g
    · rw [hg,
        exclOf_updateGroup_addExcl_self _ _ _
          (hg ▸ findGroup_inclUpdatedEntries_self_isSome sf ex tr sc acc i),
        exclOf_inclUpdatedEntries]
      simp [hleaf, hg]
    · rw [exclOf_updateGroup_addExcl_of_ne _ _ _ _ hg,
        exclOf_inclUpdatedEntries]
      simp [hg]
  · rw [if_neg hleaf, exclOf_inclUpdatedEntries]
    simp [hleaf]

/-! ## Helper lemmas: the whole frame loop of one event -/

theorem foldFrames_mem_seen (sf : List (StackFrameID × StackFrame))
    (ex : List (FileID × Executable)) (tr : StackTrace) (sc : ℚ) :
    ∀ (idxs : List Nat) (acc : TopNAcc) (g : FrameGroupID),
      (g ∈ (idxs.foldl (stepFrame sf ex tr sc) acc).seen ↔
        g ∈ acc.seen ∨ ∃ i ∈ idxs, frameGroupAt sf ex tr i = g)
  | [], acc, g => by simp
  | i₀ :: idxs', acc, g => by
    rw [List.foldl_cons,
      foldFrames_mem_seen sf ex tr sc idxs' (stepFrame sf ex tr sc acc i₀) g,
      stepFrame_mem_seen]
    simp only [List.exists_mem_cons_iff]
    tauto

theorem foldFrames_inclOf (sf : List (StackFrameID × StackFrame))
    (ex : List (FileID × Executable)) (tr : StackTrace) (sc : ℚ) :
    ∀ (idxs : List Nat) (acc : TopNAcc) (g : FrameGroupID),
      inclOf (idxs.foldl (stepFrame sf ex tr sc) acc).entries g =
        inclOf acc.entries g +
          (if g ∉ acc.seen ∧ ∃ i ∈ idxs, frameGroupAt sf ex tr i = g
           then sc else 0)
  | [], acc, g => by simp
  | i₀ :: idxs', acc, g => by
    rw [List.foldl_cons,
      foldFrames_inclOf sf ex tr sc idxs' (stepFrame sf ex tr sc acc i₀) g,
      stepFrame_inclOf]
    by_cases hgs : g ∈ acc.seen
    · have h1 : ¬(frameGroupAt sf ex tr i₀ = g ∧
          frameGroupAt sf ex tr i₀ ∉ acc.seen) := by
        rintro ⟨h, hn⟩
        exact hn (h.symm ▸ hgs)
      have h2 : g ∈ (stepFrame sf ex tr sc acc i₀).seen :=
        (stepFrame_mem_seen sf ex tr sc acc i₀ g).mpr (Or.inl hgs)
      simp [List.exists_mem_cons_iff, h1, hgs, h2]
    · by_cases hfg : frameGroupAt sf ex tr i₀ = g
      · have h1 : frameGroupAt sf ex tr i₀ ∉ acc.seen := fun hh =>
          hgs (hfg ▸ hh)
        have h2 : g ∈ (stepFrame sf ex tr sc acc i₀).seen :=
          (stepFrame_mem_seen sf ex tr sc acc i₀ g).mpr (Or.inr hfg)
        simp [List.exists_mem_cons_iff, hfg, h1, h2, hgs]
      · have h2 : g ∉ (stepFrame sf ex tr sc acc i₀).seen := by
          rw [stepFrame_mem_seen]
          rintro (h | h)
          · exact hgs h
          · exact hfg h
        simp [List.exists_mem_cons_iff, hfg, hgs, h2, add_assoc]

theorem foldFrames_exclOf (sf : List (StackFrameID × StackFrame))
    (ex : List (FileID × Executable)) (tr : StackTrace) (sc : ℚ) :
    ∀ (idxs : List Nat) (acc : TopNAcc) (g : FrameGroupID),
      exclOf (idxs.foldl (stepFrame sf ex tr sc) acc).entries g =
        exclOf acc.entries g +
          (idxs.count (tr.FrameIDs.length - 1) : ℚ) *
            (if frameGroupAt sf ex tr (tr.FrameIDs.length - 1) = g
             then sc else 0)
  | [], acc, g => by simp
  | i₀ :: idxs', acc, g => by
    rw [List.foldl_cons,
      foldFrames_exclOf sf ex tr sc idxs' (stepFrame sf ex tr sc acc i₀) g,
      stepFrame_exclOf, List.count_cons]
    by_cases hi : i₀ = tr.FrameIDs.length - 1
    · subst hi
      by_cases hfg : frameGroupAt sf ex tr (tr.FrameIDs.length - 1) = g
      · simp [hfg]
        ring
      · simp [hfg]
    · have hbeq : ¬(i₀ == tr.FrameIDs.length - 1) = true := by
        simpa using hi
      simp [hi, hbeq]

theorem accumTrace_inclOf (sf : List (StackFrameID × StackFrame))
    (ex : List (FileID × Executable)) (tr : StackTrace) (sc : ℚ)
    (entries : List TopNFunctionAndFrameGroup) (g : FrameGroupID) :
    inclOf (accumTrace sf ex tr sc entries) g =
      inclOf entries g +
        (if ∃ i ∈ List.range tr.FrameIDs.length, frameGroupAt sf ex tr i = g
         then sc else 0) := by
  unfold accumTrace
  rw [foldFrames_inclOf]
  simp

theorem accumTrace_exclOf (sf : List (StackFrameID × StackFrame))
    (ex : List (FileID × Executable)) (tr : StackTrace) (sc : ℚ)
    (entries : List TopNFunctionAndFrameGroup) (g : FrameGroupID) :
    exclOf (accumTrace sf ex tr sc entries) g =
      exclOf entries g +
        (if tr.FrameIDs.length ≠ 0 ∧
            frameGroupAt sf ex tr (tr.FrameIDs.length - 1) = g
         then sc else 0) := by
  unfold accumTrace
  rw [foldFrames_exclOf]
  rcases Nat.eq_zero_or_pos tr.FrameIDs.length with h | h
  · simp [h, List.range_zero]
  · have hmem : tr.FrameIDs.length - 1 ∈ List.range tr.FrameIDs.length :=
      List.mem_range.mpr (Nat.sub_lt h Nat.one_pos)
    have hcount : (List.range tr.FrameIDs.length).count
        (tr.FrameIDs.length - 1) = 1 :=
      List.count_eq_one_of_mem (List.nodup_range _) hmem
    rw [hcount]
    have hne : tr.FrameIDs.length ≠ 0 := Nat.pos_iff_ne_zero.mp h
    by_cases hfg : frameGroupAt sf ex tr (tr.FrameIDs.length - 1) = g <;>
      simp [hfg, hne]

/-! ## Helper lemmas: the event loop -/

theorem processEvent_fst (k : ℚ) (sts : List (StackTraceID × StackTrace))
    (sf : List (StackFrameID × StackFrame)) (ex : List (FileID × Executable))
    (st : ℚ × List TopNFunctionAndFrameGroup) (ev : StackTraceID × ℚ) :
    (processEvent k sts sf ex st ev).1 = st.1 + ev.2 * k := rfl

theorem processEvent_snd (k : ℚ) (sts : List (StackTraceID × StackTrace))
    (sf : List (StackFrameID × StackFrame)) (ex : List (FileID × Executable))
    (st : ℚ × List TopNFunctionAndFrameGroup) (ev : StackTraceID × ℚ) :
    (processEvent k sts sf ex st ev).2 =
      accumTrace sf ex ((lookupAL sts ev.1).getD emptyStackTrace)
        (ev.2 * k) st.2 := rfl

theorem foldEvents_fst (k : ℚ) (sts : List (StackTraceID × StackTrace))
    (sf : List (StackFrameID × StackFrame)) (ex : List (FileID × Executable)) :
    ∀ (evs : List (StackTraceID × ℚ)) (st : ℚ × List TopNFunctionAndFrameGroup),
      (evs.foldl (processEvent k sts sf ex) st).1 =
        st.1 + (evs.map (fun ev => ev.2 * k)).sum
  | [], st => by simp
  | ev :: evs, st => by
    rw [List.foldl_cons, foldEvents_fst k sts sf ex evs, processEvent_fst]
    simp [add_assoc]

theorem accumulate_fst (inp : TopNFunctionsInput) :
    (accumulate inp).1 =
      (inp.events.map (fun ev => ev.2 * (1 / inp.samplingRate))).sum := by
  unfold accumulate
  rw [foldEvents_fst]
  simp

theorem processEvent_bounds (k : ℚ) (sts : List (StackTraceID × StackTrace))
    (sf : List (StackFrameID × StackFrame)) (ex : List (FileID × Executable))
    (st : ℚ × List TopNFunctionAndFrameGroup) (ev : StackTraceID × ℚ)
    (hsc : 0 ≤ ev.2 * k) (h0 : 0 ≤ st.1)
    (h : ∀ g, 0 ≤ exclOf st.2 g ∧ exclOf st.2 g ≤ inclOf st.2 g ∧
      inclOf st.2 g ≤ st.1) :
    0 ≤ (processEvent k sts sf ex st ev).1 ∧
      ∀ g, 0 ≤ exclOf (processEvent k sts sf ex st ev).2 g ∧
        exclOf (processEvent k sts sf ex st ev).2 g ≤
          inclOf (processEvent k sts sf ex st ev).2 g ∧
        inclOf (processEvent k sts sf ex st ev).2 g ≤
          (processEvent k sts sf ex st ev).1 := by
  rw [processEvent_fst]
  constructor
  · exact add_nonneg h0 hsc
  intro g
  rw [processEvent_snd, accumTrace_inclOf, accumTrace_exclOf]
  set tr := (lookupAL sts ev.1).getD emptyStackTrace with htr
  obtain ⟨he0, hei, his⟩ := h g
  by_cases hleaf : tr.FrameIDs.length ≠ 0 ∧
      frameGroupAt sf ex tr (tr.FrameIDs.length - 1) = g
  · have hex : ∃ i ∈ List.range tr.FrameIDs.length,
        frameGroupAt sf ex tr i = g :=
      ⟨tr.FrameIDs.length - 1,
        List.mem_range.mpr
          (Nat.sub_lt (Nat.pos_of_ne_zero hleaf.1) Nat.one_pos),
        hleaf.2⟩
    rw [if_pos hleaf, if_pos hex]
    refine ⟨by linarith, by linarith, by linarith⟩
  · rw [if_neg hleaf]
    by_cases hex : ∃ i ∈ List.range tr.FrameIDs.length,
        frameGroupAt sf ex tr i = g
    · rw [if_pos hex]
      refine ⟨by linarith, by linarith, by linarith⟩
    · rw [if_neg hex]
      refine ⟨by linarith, by linarith, by linarith⟩

theorem foldEvents_bounds (k : ℚ) (sts : List (StackTraceID × StackTrace))
    (sf : List (StackFrameID × StackFrame)) (ex : List (FileID × Executable))
    (hk : 0 ≤ k) :
    ∀ (evs : List (StackTraceID × ℚ)) (st : ℚ × List TopNFunctionAndFrameGroup),
      (∀ ev ∈ evs, 0 ≤ ev.2) → 0 ≤ st.1 →
      (∀ g, 0 ≤ exclOf st.2 g ∧ exclOf st.2 g ≤ inclOf st.2 g ∧
        inclOf st.2 g ≤ st.1) →
      0 ≤ (evs.foldl (processEvent k sts sf ex) st).1 ∧
        ∀ g, 0 ≤ exclOf (evs.foldl (processEvent k sts sf ex) st).2 g ∧
          exclOf (evs.foldl (processEvent k sts sf ex) st).2 g ≤
            inclOf (evs.foldl (processEvent k sts sf ex) st).2 g ∧
          inclOf (evs.foldl (processEvent k sts sf ex) st).2 g ≤
            (evs.foldl (processEvent k sts sf ex) st).1
  | [], st, _, h0, h => ⟨h0, h⟩
  | ev :: evs, st, hev, h0, h => by
    rw [List.foldl_cons]
    have hstep := processEvent_bounds k sts sf ex st ev
      (mul_nonneg (hev ev (List.mem_cons_self ev evs)) hk) h0 h
    exact foldEvents_bounds k sts sf ex hk evs _
      (fun e hm => hev e (List.mem_cons_of_mem _ hm)) hstep.1 hstep.2

theorem accumulate_bounds (inp : TopNFunctionsInput)
    (hrate : 0 < inp.samplingRate) (hev : ∀ ev ∈ inp.events, 0 ≤ ev.2) :
    0 ≤ (accumulate inp).1 ∧
      ∀ g, 0 ≤ exclOf (accumulate inp).2 g ∧
        exclOf (accumulate inp).2 g ≤ inclOf (accumulate inp).2 g ∧
        inclOf (accumulate inp).2 g ≤ (accumulate inp).1 := by
  unfold accumulate
  exact foldEvents_bounds _ _ _ _
    (le_of_lt (by positivity)) _ _ hev le_rfl
    (fun g => by simp [inclOf_nil, exclOf_nil])

/-! ## Helper lemmas: the accumulator's keys stay pairwise distinct -/

theorem keysOf_updateGroup (l : List TopNFunctionAndFrameGroup)
    (g : FrameGroupID)
    (f : TopNFunctionAndFrameGroup → TopNFunctionAndFrameGroup)
    (hid : ∀ e, (f e).FrameGroupID = e.FrameGroupID) :
    keysOf (updateGroup l g f) = keysOf l := by
  induction l with
  | nil => rfl
  | cons e es ih =>
    by_cases h1 : e.FrameGroupID = g
    · rw [updateGroup, if_pos h1]
      simp [keysOf, hid]
    · rw [updateGroup, if_neg h1]
      simp only [keysOf, List.map_cons] at ih ⊢
      rw [ih]

theorem findGroup_eq_none_iff (l : List TopNFunctionAndFrameGroup)
    (g : FrameGroupID) : findGroup l g = none ↔ g ∉ keysOf l := by
  induction l with
  | nil => simp [findGroup, keysOf]
  | cons e es ih =>
    by_cases h1 : e.FrameGroupID = g
    · simp [findGroup, keysOf, h1]
    · simp [findGroup, keysOf, h1, ih, Ne.symm h1]

theorem keysOf_ensureGroup_nodup (l : List TopNFunctionAndFrameGroup)
    (g : FrameGroupID) (m : StackFrameMetadata) (h : (keysOf l).Nodup) :
    (keysOf (ensureGroup l g m)).Nodup := by
  unfold ensureGroup
  cases hf : findGroup l g with
  | some e => exact h
  | none =>
    have hg : g ∉ keysOf l := (findGroup_eq_none_iff l g).mp hf
    simp only [keysOf, List.map_append, List.map_cons, List.map_nil]
    rw [List.nodup_append]
    refine ⟨h, List.nodup_singleton g, ?_⟩
    intro a ha hb
    simp only [List.mem_singleton] at hb
    exact hg (hb ▸ ha)

theorem stepFrame_keys_nodup (sf : List (StackFrameID × StackFrame))
    (ex : List (FileID × Executable)) (tr : StackTrace) (sc : ℚ)
    (acc : TopNAcc) (i : Nat) (h : (keysOf acc.entries).Nodup) :
    (keysOf (stepFrame sf ex tr sc acc i).entries).Nodup := by
  have h1 : (keysOf (ensuredEntries sf ex tr acc i)).Nodup :=
    keysOf_ensureGroup_nodup _ _ _ h
  have h2 : (keysOf (inclUpdatedEntries sf ex tr sc acc i)).Nodup := by
    unfold inclUpdatedEntries
    by_cases hseen : frameGroupAt sf ex tr i ∈ acc.seen
    · rw [if_pos hseen]; exact h1
    · rw [if_neg hseen, keysOf_updateGroup _ _ (addIncl sc) (fun e => rfl)]
      exact h1
  show (keysOf (if i = tr.FrameIDs.length - 1 then
      updateGroup (inclUpdatedEntries sf ex tr sc acc i)
        (frameGroupAt sf ex tr i) (addExcl sc)
    else inclUpdatedEntries sf ex tr sc acc i)).Nodup
  by_cases hleaf : i = tr.FrameIDs.length - 1
  · rw [if_pos hleaf, keysOf_updateGroup _ _ (addExcl sc) (fun e => rfl)]
    exact h2
  · rw [if_neg hleaf]
    exact h2

theorem foldFrames_keys_nodup (sf : List (StackFrameID × StackFrame))
    (ex : List (FileID × Executable)) (tr : StackTrace) (sc : ℚ) :
    ∀ (idxs : List Nat) (acc : TopNAcc), (keysOf acc.entries).Nodup →
      (keysOf (idxs.foldl (stepFrame sf ex tr sc) acc).entries).Nodup
  | [], acc, h => h
  | i₀ :: idxs', acc, h => by
    rw [List.foldl_cons]
    exact foldFrames_keys_nodup sf ex tr sc idxs' _
      (stepFrame_keys_nodup sf ex tr sc acc i₀ h)

theorem accumTrace_keys_nodup (sf : List (StackFrameID × StackFrame))
    (ex : List (FileID × Executable)) (tr : StackTrace) (sc : ℚ)
    (entries : List TopNFunctionAndFrameGroup)
    (h : (keysOf entries).Nodup) :
    (keysOf (accumTrace sf ex tr sc entries)).Nodup :=
  foldFrames_keys_nodup sf ex tr sc _ ⟨entries, []⟩ h

theorem foldEvents_keys_nodup (k : ℚ)
    (sts : List (StackTraceID × StackTrace))
    (sf : List (StackFrameID × StackFrame))
    (ex : List (FileID × Executable)) :
    ∀ (evs : List (StackTraceID × ℚ))
      (st : ℚ × List TopNFunctionAndFrameGroup), (keysOf st.2).Nodup →
      (keysOf (evs.foldl (processEvent k sts sf ex) st).2).Nodup
  | [], st, h => h
  | ev :: evs, st, h => by
    rw [List.foldl_cons]
    refine foldEvents_keys_nodup k sts sf ex evs _ ?_
    rw [processEvent_snd]
    exact accumTrace_keys_nodup _ _ _ _ _ h

theorem accumulate_keys_nodup (inp : TopNFunctionsInput) :
    (keysOf (accumulate inp).2).Nodup := by
  unfold accumulate
  exact foldEvents_keys_nodup _ _ _ _ _ _ (by simp [keysOf])

theorem findGroup_of_mem (l : List TopNFunctionAndFrameGroup)
    (h : (keysOf l).Nodup) (e : TopNFunctionAndFrameGroup) (he : e ∈ l) :
    findGroup l e.FrameGroupID = some e := by
  induction l with
  | nil => cases he
  | cons e₀ es ih =>
    rcases List.mem_cons.mp he with rfl | hmem
    · simp [findGroup]
    · have hkey : e.FrameGroupID ∈ keysOf es :=
        List.mem_map_of_mem _ hmem
      have hne : ¬e₀.FrameGroupID = e.FrameGroupID := by
        intro hh
        have : e₀.FrameGroupID ∉ keysOf es :=
          (List.nodup_cons.mp h).1
        exact this (hh ▸ hkey)
      rw [findGroup, if_neg hne]
      exact ih (List.nodup_cons.mp h).2 hmem

theorem exclOf_of_mem (l : List TopNFunctionAndFrameGroup)
    (h : (keysOf l).Nodup) (e : TopNFunctionAndFrameGroup) (he : e ∈ l) :
    exclOf l e.FrameGroupID = e.CountExclusive := by
  unfold exclOf
  rw [findGroup_of_mem l h e he]

theorem inclOf_of_mem (l : List TopNFunctionAndFrameGroup)
    (h : (keysOf l).Nodup) (e : TopNFunctionAndFrameGroup) (he : e ∈ l) :
    inclOf l e.FrameGroupID = e.CountInclusive := by
  unfold inclOf
  rw [findGroup_of_mem l h e he]

/-! ## Helper lemmas: indexed map -/

theorem length_mapIndexedFrom {α β : Type} (f : Nat → α → β) :
    ∀ (l : List α) (k : Nat), (mapIndexedFrom f k l).length = l.length
  | [], _ => rfl
  | a :: as, k => by
    simp [mapIndexedFrom, length_mapIndexedFrom f as]

theorem getElem?_mapIndexedFrom {α β : Type} (f : Nat → α → β) :
    ∀ (l : List α) (k j : Nat),
      (mapIndexedFrom f k l)[j]? = (l[j]?).map (f (k + j))
  | [], k, j => by simp [mapIndexedFrom]
  | a :: as, k, 0 => by simp [mapIndexedFrom]
  | a :: as, k, j + 1 => by
    have hidx : k + 1 + j = k + (j + 1) := by omega
    simp only [mapIndexedFrom, List.getElem?_cons_succ,
      getElem?_mapIndexedFrom f as (k + 1) j, hidx]

theorem mem_mapIndexedFrom {α β : Type} (f : Nat → α → β) :
    ∀ (l : List α) (k : Nat) (b : β), b ∈ mapIndexedFrom f k l →
      ∃ i a, a ∈ l ∧ b = f i a
  | [], _, b, h => by simp [mapIndexedFrom] at h
  | a :: as, k, b, h => by
    rcases List.mem_cons.mp h with hb | hmem
    · exact ⟨k, a, List.mem_cons_self a as, hb⟩
    · obtain ⟨i, a', ha', hb⟩ := mem_mapIndexedFrom f as (k + 1) b hmem
      exact ⟨i, a', List.mem_cons_of_mem _ ha', hb⟩

theorem length_mapIndexed {α β : Type} (f : Nat → α → β) (l : List α) :
    (mapIndexed f l).length = l.length :=
  length_mapIndexedFrom f l 0

theorem getElem?_mapIndexed {α β : Type} (f : Nat → α → β) (l : List α)
    (j : Nat) : (mapIndexed f l)[j]? = (l[j]?).map (f j) := by
  unfold mapIndexed
  rw [getElem?_mapIndexedFrom f l 0 j, Nat.zero_add]

theorem mem_mapIndexed {α β : Type} (f : Nat → α → β) (l : List α) (b : β)
    (h : b ∈ mapIndexed f l) : ∃ i a, a ∈ l ∧ b = f i a :=
  mem_mapIndexedFrom f l 0 b h

/-! ## Helper lemmas: the sort-then-reverse step -/

theorem sortTopN_perm (l : List TopNFunctionAndFrameGroup) :
    List.Perm (sortTopN l) l :=
  (List.reverse_perm _).trans (List.perm_insertionSort _ _)

theorem specSortDescending_perm (l : List TopNFunctionAndFrameGroup) :
    List.Perm (specSortDescending l) l :=
  List.perm_insertionSort _ _

theorem sortTopN_pairwise_descLe (l : List TopNFunctionAndFrameGroup) :
    (sortTopN l).Pairwise descLe := by
  have hasc : (l.insertionSort ascLe).Pairwise ascLe :=
    List.sorted_insertionSort ascLe l
  have hrev : ((l.insertionSort ascLe).reverse).Pairwise
      (fun a b => descLe a b) := by
    rw [List.pairwise_reverse]
    refine hasc.imp ?_
    intro a b hab
    rcases hab with h | ⟨h, h'⟩
    · exact Or.inl h
    · exact Or.inr ⟨h.symm, h'⟩
  exact hrev

theorem specSortDescending_pairwise_descLe
    (l : List TopNFunctionAndFrameGroup) :
    (specSortDescending l).Pairwise descLe :=
  List.sorted_insertionSort descLe l

theorem descLe_antisymm_of_ne (a b : TopNFunctionAndFrameGroup)
    (hab : descLe a b) (hba : descLe b a)
    (hne : a.FrameGroupID ≠ b.FrameGroupID) : False := by
  rcases hab with h1 | ⟨h1, h1'⟩ <;> rcases hba with h2 | ⟨h2, h2'⟩
  · exact lt_irrefl _ (h1.trans h2)
  · exact lt_irrefl _ (h2 ▸ h1)
  · exact lt_irrefl _ (h1 ▸ h2)
  · exact hne (le_antisymm h2' h1')

theorem sortTopN_eq_specSortDescending (l : List TopNFunctionAndFrameGroup)
    (h : l.Pairwise fun a b => a.FrameGroupID ≠ b.FrameGroupID) :
    sortTopN l = specSortDescending l := by
  have hperm : List.Perm (sortTopN l) (specSortDescending l) :=
    (sortTopN_perm l).trans (specSortDescending_perm l).symm
  have hne1 : (sortTopN l).Pairwise
      (fun a b => a.FrameGroupID ≠ b.FrameGroupID) :=
    ((sortTopN_perm l).pairwise_iff (fun hab => hab.symm)).mpr h
  have hne2 : (specSortDescending l).Pairwise
      (fun a b => a.FrameGroupID ≠ b.FrameGroupID) :=
    ((specSortDescending_perm l).pairwise_iff (fun hab => hab.symm)).mpr h
  have hs1 : (sortTopN l).Pairwise
      (fun a b => descLe a b ∧ a.FrameGroupID ≠ b.FrameGroupID) :=
    (sortTopN_pairwise_descLe l).and hne1
  have hs2 : (specSortDescending l).Pairwise
      (fun a b => descLe a b ∧ a.FrameGroupID ≠ b.FrameGroupID) :=
    (specSortDescending_pairwise_descLe l).and hne2
  haveI : IsAntisymm TopNFunctionAndFrameGroup
      (fun a b => descLe a b ∧ a.FrameGroupID ≠ b.FrameGroupID) :=
    ⟨fun a b hab hba =>
      (descLe_antisymm_of_ne a b hab.1 hba.1 hab.2).elim⟩
  exact List.eq_of_perm_of_sorted hperm hs1 hs2

/-! ## Helper lemmas: projections of the final report -/

theorem createTopNFunctions_TotalCount (inp : TopNFunctionsInput) :
    (createTopNFunctions inp).TotalCount = (accumulate inp).1 := rfl

theorem createTopNFunctions_SamplingRate (inp : TopNFunctionsInput) :
    (createTopNFunctions inp).SamplingRate = inp.samplingRate := rfl

theorem createTopNFunctions_TopN (inp : TopNFunctionsInput) :
    (createTopNFunctions inp).TopN =
      mapIndexed (makeRow (accumulate inp).1 inp.totalSeconds)
        (((rankedEntries inp).drop
            (if inp.startIndex > (rankedEntries inp).length
             then (rankedEntries inp).length else inp.startIndex)).take
          ((if inp.endIndex > (rankedEntries inp).length
            then (rankedEntries inp).length else inp.endIndex) -
           (if inp.startIndex > (rankedEntries inp).length
            then (rankedEntries inp).length else inp.startIndex))) := rfl

theorem createTopNFunctions_impactEstimates (inp : TopNFunctionsInput) :
    (createTopNFunctions inp).impactEstimates =
      if inp.totalSeconds > 0 then
        some (calculateImpactEstimates
          (((createTopNFunctions inp).TopN.map (·.CountExclusive)).sum)
          (((createTopNFunctions inp).TopN.map (·.CountInclusive)).sum)
          (accumulate inp).1 inp.totalSeconds)
      else none := rfl

theorem makeRow_Rank (tc ts : ℚ) (i : Nat)
    (e : TopNFunctionAndFrameGroup) : (makeRow tc ts i e).Rank = i + 1 := rfl

theorem makeRow_Id (tc ts : ℚ) (i : Nat) (e : TopNFunctionAndFrameGroup) :
    (makeRow tc ts i e).Id = e.FrameGroupID := rfl

theorem makeRow_CountExclusive (tc ts : ℚ) (i : Nat)
    (e : TopNFunctionAndFrameGroup) :
    (makeRow tc ts i e).CountExclusive = e.CountExclusive := rfl

theorem makeRow_CountInclusive (tc ts : ℚ) (i : Nat)
    (e : TopNFunctionAndFrameGroup) :
    (makeRow tc ts i e).CountInclusive = e.CountInclusive := rfl

theorem makeRow_impactEstimates (tc ts : ℚ) (i : Nat)
    (e : TopNFunctionAndFrameGroup) :
    (makeRow tc ts i e).impactEstimates =
      if ts > 0 then
        some (calculateImpactEstimates e.CountExclusive e.CountInclusive tc ts)
      else none := rfl

end TopN

/-! ## Claim theorems: Top-N aggregator -/

namespace TopN

/-- C1: for the events map `(T1, 10)` with `samplingRate = 1` and the single
stack trace `[A, B, C]` with pairwise-distinct frame groups (leaf `C`),
`createTopNFunctions` accumulates `CountInclusive = 10` for each of A, B, C,
`CountExclusive = 10` for C and 0 for A and B, and returns `TotalCount = 10`;
and in general the exclusive count accrues a trace's scaled count exactly at
the last (leaf) frame position of the trace. -/
theorem c1_single_trace_inclusive_exclusive_counts :
    (fgA ≠ fgB ∧ fgA ≠ fgC ∧ fgB ≠ fgC) ∧
    (createTopNFunctions inpC1).TotalCount = 10 ∧
    ((createTopNFunctions inpC1).TopN.map
      (fun r => (r.Id, r.CountInclusive, r.CountExclusive))) =
      [(fgC, 10, 10), (fgB, 10, 0), (fgA, 10, 0)] ∧
    (∀ (sf : List (StackFrameID × StackFrame))
      (ex : List (FileID × Executable)) (tr : StackTrace) (sc : ℚ)
      (entries : List TopNFunctionAndFrameGroup) (g : FrameGroupID),
      exclOf (accumTrace sf ex tr sc entries) g =
        exclOf entries g +
          (if tr.FrameIDs.length ≠ 0 ∧
              frameGroupAt sf ex tr (tr.FrameIDs.length - 1) = g
           then sc else 0)) :=
  ⟨by with_unfolding_all decide, by with_unfolding_all decide,
    by with_unfolding_all decide, accumTrace_exclOf⟩

/-- C2: for the trace `[A, A, B]` (leaf `B`) with `events = (T1, 5)` and
`samplingRate = 1`, frame-group A's `CountInclusive` is 5, not 10; and in
general one event changes a frame-group's inclusive count either not at all
or by exactly the event's scaled count (at most once per event). -/
theorem c2_inclusive_deduplicated_within_trace :
    frameGroupAt [] [] traceAAB 0 ≠ frameGroupAt [] [] traceAAB 2 ∧
    frameGroupAt [] [] traceAAB 0 = frameGroupAt [] [] traceAAB 1 ∧
    ((createTopNFunctions inpC2).TopN.map
      (fun r => (r.Id, r.CountInclusive, r.CountExclusive))) =
      [(frameGroupAt [] [] traceAAB 2, 5, 5),
       (frameGroupAt [] [] traceAAB 0, 5, 0)] ∧
    (∀ (sf : List (StackFrameID × StackFrame))
      (ex : List (FileID × Executable)) (tr : StackTrace) (sc : ℚ)
      (entries : List TopNFunctionAndFrameGroup) (g : FrameGroupID),
      inclOf (accumTrace sf ex tr sc entries) g = inclOf entries g ∨
      inclOf (accumTrace sf ex tr sc entries) g = inclOf entries g + sc) := by
  refine ⟨by with_unfolding_all decide, by with_unfolding_all decide,
    by with_unfolding_all decide, ?_⟩
  intro sf ex tr sc entries g
  rw [accumTrace_inclOf]
  by_cases hex : ∃ i ∈ List.range tr.FrameIDs.length,
      frameGroupAt sf ex tr i = g
  · rw [if_pos hex]
    exact Or.inr rfl
  · rw [if_neg hex]
    exact Or.inl (by ring)

/-- C3: every contribution of an event is its raw count times
`1 / samplingRate`: the running total after one event grows by exactly
`rawCount * (1 / samplingRate)` and each frame-group count grows by 0 or by
that scaled amount; `TotalCount` is the sum over all events of
`rawCount / samplingRate`; concretely with `events = (T1, 3)` and
`samplingRate = 0.5` every count attributable to T1 is 6, not 3. -/
theorem c3_counts_scaled_by_inverse_sampling_rate :
    (createTopNFunctions inpC3).TotalCount = 6 ∧
    ((createTopNFunctions inpC3).TopN.map
      (fun r => (r.Id, r.CountInclusive, r.CountExclusive))) =
      [(frameGroupAt [] [] traceAB 1, 6, 6),
       (frameGroupAt [] [] traceAB 0, 6, 0)] ∧
    (∀ inp : TopNFunctionsInput, 0 < inp.samplingRate →
      (createTopNFunctions inp).TotalCount =
        (inp.events.map (fun ev => ev.2 / inp.samplingRate)).sum) ∧
    (∀ (rate : ℚ) (sts : List (StackTraceID × StackTrace))
      (sf : List (StackFrameID × StackFrame))
      (ex : List (FileID × Executable))
      (st : ℚ × List TopNFunctionAndFrameGroup) (ev : StackTraceID × ℚ)
      (g : FrameGroupID),
      (processEvent (1 / rate) sts sf ex st ev).1 =
        st.1 + ev.2 * (1 / rate) ∧
      (inclOf (processEvent (1 / rate) sts sf ex st ev).2 g =
          inclOf st.2 g ∨
        inclOf (processEvent (1 / rate) sts sf ex st ev).2 g =
          inclOf st.2 g + ev.2 * (1 / rate)) ∧
      (exclOf (processEvent (1 / rate) sts sf ex st ev).2 g =
          exclOf st.2 g ∨
        exclOf (processEvent (1 / rate) sts sf ex st ev).2 g =
          exclOf st.2 g + ev.2 * (1 / rate))) := by
  refine ⟨by with_unfolding_all decide, by with_unfolding_all decide, ?_, ?_⟩
  · intro inp _
    rw [createTopNFunctions_TotalCount, accumulate_fst]
    have hfun : (fun ev : StackTraceID × ℚ =>
        ev.2 * (1 / inp.samplingRate)) =
        fun ev : StackTraceID × ℚ => ev.2 / inp.samplingRate :=
      funext fun ev => mul_one_div _ _
    rw [hfun]
  · intro rate sts sf ex st ev g
    refine ⟨processEvent_fst _ _ _ _ _ _, ?_, ?_⟩
    · rw [processEvent_snd, accumTrace_inclOf]
      by_cases hex : ∃ i ∈ List.range
          ((lookupAL sts ev.1).getD emptyStackTrace).FrameIDs.length,
          frameGroupAt sf ex ((lookupAL sts ev.1).getD emptyStackTrace) i = g
      · rw [if_pos hex]
        exact Or.inr rfl
      · rw [if_neg hex]
        exact Or.inl (by ring)
    · rw [processEvent_snd, accumTrace_exclOf]
      by_cases hleaf : ((lookupAL sts ev.1).getD
            emptyStackTrace).FrameIDs.length ≠ 0 ∧
          frameGroupAt sf ex ((lookupAL sts ev.1).getD emptyStackTrace)
            (((lookupAL sts ev.1).getD emptyStackTrace).FrameIDs.length - 1)
            = g
      · rw [if_pos hleaf]
        exact Or.inr rfl
      · rw [if_neg hleaf]
        exact Or.inl (by ring)

/-- C3 witness: the general clauses instantiated at the concrete
`samplingRate = 0.5` input. -/
theorem c3_witness :
    0 < inpC3.samplingRate ∧
    (createTopNFunctions inpC3).TotalCount =
      (inpC3.events.map (fun ev => ev.2 / inpC3.samplingRate)).sum :=
  ⟨by with_unfolding_all decide,
    c3_counts_scaled_by_inverse_sampling_rate.2.2.1 inpC3
      (by with_unfolding_all decide)⟩

/-- C4: on accumulators with pairwise-distinct frame-group ids, the source's
ranking procedure (ascending sort by exclusive count with ascending id
tie-break, then reverse) produces exactly the order of a single descending
comparator with descending id tie-break. -/
theorem c4_sort_reverse_equals_descending_comparator
    (l : List TopNFunctionAndFrameGroup)
    (h : l.Pairwise fun a b => a.FrameGroupID ≠ b.FrameGroupID) :
    sortTopN l = specSortDescending l :=
  sortTopN_eq_specSortDescending l h

/-- C4 witness: two entries with equal exclusive counts and distinct ids. -/
theorem c4_witness :
    ([entryX, entryY].Pairwise
      fun a b => a.FrameGroupID ≠ b.FrameGroupID) ∧
    sortTopN [entryX, entryY] = specSortDescending [entryX, entryY] :=
  ⟨by with_unfolding_all decide,
    c4_sort_reverse_equals_descending_comparator [entryX, entryY]
      (by with_unfolding_all decide)⟩

end TopN

namespace TopN

/-- C5: `startIndex` and `endIndex` are each clamped down to the number of
ranked entries when greater, the returned `TopN` is the
`[startIndex, endIndex)` slice of the ranked sequence, and each row's `Rank`
is its position within the slice plus 1; with 5 entries and
`startIndex = 10, endIndex = 20` the result is empty. -/
theorem c5_pagination_clamp_slice_and_rank :
    (∀ inp : TopNFunctionsInput,
      ((createTopNFunctions inp).TopN).length =
        min inp.endIndex (rankedEntries inp).length -
          min inp.startIndex (rankedEntries inp).length ∧
      ∀ j row, ((createTopNFunctions inp).TopN)[j]? = some row →
        row.Rank = j + 1 ∧
        ∃ e, (rankedEntries inp)[min inp.startIndex
            (rankedEntries inp).length + j]? = some e ∧
          row = makeRow (accumulate inp).1 inp.totalSeconds j e) ∧
    (rankedEntries inpC5).length = 5 ∧
    (createTopNFunctions inpC5).TopN = [] := by
  refine ⟨?_, by with_unfolding_all decide, by with_unfolding_all decide⟩
  intro inp
  have hs' : (if inp.startIndex > (rankedEntries inp).length
      then (rankedEntries inp).length else inp.startIndex) =
      min inp.startIndex (rankedEntries inp).length := by
    split_ifs with h <;> omega
  have he' : (if inp.endIndex > (rankedEntries inp).length
      then (rankedEntries inp).length else inp.endIndex) =
      min inp.endIndex (rankedEntries inp).length := by
    split_ifs with h <;> omega
  constructor
  · rw [createTopNFunctions_TopN, length_mapIndexed, List.length_take,
      List.length_drop, hs', he']
    omega
  · intro j row hrow
    rw [createTopNFunctions_TopN, getElem?_mapIndexed,
      Option.map_eq_some'] at hrow
    obtain ⟨e, hej, hroweq⟩ := hrow
    have hjlen : j < (((rankedEntries inp).drop
        (if inp.startIndex > (rankedEntries inp).length
         then (rankedEntries inp).length else inp.startIndex)).take
        ((if inp.endIndex > (rankedEntries inp).length
          then (rankedEntries inp).length else inp.endIndex) -
         (if inp.startIndex > (rankedEntries inp).length
          then (rankedEntries inp).length else inp.startIndex))).length := by
      obtain ⟨hlt, -⟩ := List.getElem?_eq_some_iff.mp hej
      exact hlt
    have hjtake : j < ((if inp.endIndex > (rankedEntries inp).length
        then (rankedEntries inp).length else inp.endIndex) -
       (if inp.startIndex > (rankedEntries inp).length
        then (rankedEntries inp).length else inp.startIndex)) := by
      rw [List.length_take] at hjlen
      omega
    rw [List.getElem?_take_of_lt hjtake, List.getElem?_drop, hs'] at hej
    exact ⟨hroweq ▸ makeRow_Rank _ _ _ _, e, hej, hroweq.symm⟩

/-- C5 witness: the first returned row of the three-entry input has rank 1,
and the out-of-range concrete input from the theorem's last conjunct. -/
theorem c5_witness :
    ((createTopNFunctions inpC1).TopN)[0]? =
      some (makeRow 10 0 0 ⟨metadataAt [] [] traceABC 2, fgC, 10, 10⟩) ∧
    (makeRow 10 0 0
      ⟨metadataAt [] [] traceABC 2, fgC, 10, 10⟩).Rank = 0 + 1 :=
  ⟨by with_unfolding_all decide,
    ((c5_pagination_clamp_slice_and_rank.1 inpC1).2 0 _
      (by with_unfolding_all decide)).1⟩

/-- C6: impact estimates are present on every returned row and on the
aggregate exactly when `totalSeconds > 0`, and are computed by
`calculateImpactEstimates`; when `totalSeconds ≤ 0` the field is absent
everywhere. -/
theorem c6_impact_estimates_gated_by_total_seconds
    (inp : TopNFunctionsInput) :
    (inp.totalSeconds ≤ 0 →
      (createTopNFunctions inp).impactEstimates = none ∧
      ∀ row ∈ (createTopNFunctions inp).TopN,
        row.impactEstimates = none) ∧
    (0 < inp.totalSeconds →
      (createTopNFunctions inp).impactEstimates =
        some (calculateImpactEstimates
          (((createTopNFunctions inp).TopN.map (·.CountExclusive)).sum)
          (((createTopNFunctions inp).TopN.map (·.CountInclusive)).sum)
          (createTopNFunctions inp).TotalCount inp.totalSeconds) ∧
      ∀ row ∈ (createTopNFunctions inp).TopN,
        row.impactEstimates =
          some (calculateImpactEstimates row.CountExclusive
            row.CountInclusive (createTopNFunctions inp).TotalCount
            inp.totalSeconds)) := by
  constructor
  · intro hle
    have hnotpos : ¬inp.totalSeconds > 0 := not_lt.mpr hle
    constructor
    · rw [createTopNFunctions_impactEstimates, if_neg hnotpos]
    · intro row hrow
      rw [createTopNFunctions_TopN] at hrow
      obtain ⟨i, e, _, hroweq⟩ := mem_mapIndexed _ _ _ hrow
      rw [hroweq, makeRow_impactEstimates, if_neg hnotpos]
  · intro hpos
    constructor
    · rw [createTopNFunctions_impactEstimates, if_pos hpos]
      rfl
    · intro row hrow
      rw [createTopNFunctions_TopN] at hrow
      obtain ⟨i, e, _, hroweq⟩ := mem_mapIndexed _ _ _ hrow
      rw [hroweq, makeRow_impactEstimates, if_pos hpos,
        makeRow_CountExclusive, makeRow_CountInclusive]
      rfl

/-- C6 witness: at `totalSeconds = 0` the aggregate estimate is absent; at
`totalSeconds = 30` it is present and built by `calculateImpactEstimates`. -/
theorem c6_witness :
    (createTopNFunctions inpC1).impactEstimates = none ∧
    (createTopNFunctions inpC6pos).impactEstimates =
      some (calculateImpactEstimates
        (((createTopNFunctions inpC6pos).TopN.map (·.CountExclusive)).sum)
        (((createTopNFunctions inpC6pos).TopN.map (·.CountInclusive)).sum)
        (createTopNFunctions inpC6pos).TotalCount inpC6pos.totalSeconds) :=
  ⟨((c6_impact_estimates_gated_by_total_seconds inpC1).1
      (by with_unfolding_all decide)).1,
    ((c6_impact_estimates_gated_by_total_seconds inpC6pos).2
      (by with_unfolding_all decide)).1⟩

/-- C10: with a positive sampling rate and nonnegative event counts, every
returned row satisfies
`0 ≤ CountExclusive ≤ CountInclusive ≤ TotalCount`. -/
theorem c10_count_ordering_invariant (inp : TopNFunctionsInput)
    (hrate : 0 < inp.samplingRate)
    (hev : ∀ ev ∈ inp.events, 0 ≤ ev.2) :
    ∀ row ∈ (createTopNFunctions inp).TopN,
      0 ≤ row.CountExclusive ∧
      row.CountExclusive ≤ row.CountInclusive ∧
      row.CountInclusive ≤ (createTopNFunctions inp).TotalCount := by
  intro row hrow
  obtain ⟨-, hbounds⟩ := accumulate_bounds inp hrate hev
  have hnodup := accumulate_keys_nodup inp
  rw [createTopNFunctions_TopN] at hrow
  obtain ⟨i, e, he, hroweq⟩ := mem_mapIndexed _ _ _ hrow
  have he2 : e ∈ rankedEntries inp :=
    List.mem_of_mem_drop (List.mem_of_mem_take he)
  unfold rankedEntries at he2
  have he3 : e ∈ (accumulate inp).2 :=
    (sortTopN_perm (accumulate inp).2).mem_iff.mp he2
  obtain ⟨hx0, hxi, hxt⟩ := hbounds e.FrameGroupID
  rw [exclOf_of_mem _ hnodup e he3] at hx0 hxi
  rw [inclOf_of_mem _ hnodup e he3] at hxi hxt
  rw [hroweq, makeRow_CountExclusive, makeRow_CountInclusive,
    createTopNFunctions_TotalCount]
  exact ⟨hx0, hxi, hxt⟩

/-- C10 witness: the invariant applied to the concrete first returned row of
the single-trace input. -/
theorem c10_witness :
    0 ≤ (makeRow 10 0 0
        ⟨metadataAt [] [] traceABC 2, fgC, 10, 10⟩).CountExclusive ∧
    (makeRow 10 0 0
        ⟨metadataAt [] [] traceABC 2, fgC, 10, 10⟩).CountExclusive ≤
      (makeRow 10 0 0
        ⟨metadataAt [] [] traceABC 2, fgC, 10, 10⟩).CountInclusive ∧
    (makeRow 10 0 0
        ⟨metadataAt [] [] traceABC 2, fgC, 10, 10⟩).CountInclusive ≤
      (createTopNFunctions inpC1).TotalCount :=
  c10_count_ordering_invariant inpC1 (by with_unfolding_all decide)
    (by
      intro ev hev
      simp only [inpC1, List.mem_singleton] at hev
      rw [hev]
      with_unfolding_all decide)
    _ (by with_unfolding_all decide)

end TopN

/-! ## Claim theorems: watcher fields route and workpad route -/

namespace Watcher

/-- C7: when the field-capabilities call succeeds, a cluster response whose
`status` property is the number 404 yields a 200 response whose body is the
downstream rendering of the Fields model built from an empty field set;
any other successful response yields a 200 response whose body is the
downstream rendering of the model built from the raw response. -/
theorem c7_fields_route_404_is_empty_fields (resp : Json) :
    (isNum404 (resp.getField "status") = true →
      listFieldsHandler (.ok resp) =
        .response 200 (.fields (Fields.downstreamJson
          (Fields.fromUpstreamJson (Json.obj [("fields", Json.arr [])]))))) ∧
    (isNum404 (resp.getField "status") = false →
      listFieldsHandler (.ok resp) =
        .response 200 (.fields (Fields.downstreamJson
          (Fields.fromUpstreamJson resp)))) := by
  constructor <;> intro h <;> simp [listFieldsHandler, h]

/-- C7 witness: a concrete 404 cluster response produces the empty-fields
body with status 200. -/
theorem c7_witness :
    isNum404 ((Json.obj [("status", Json.num 404)]).getField "status") =
      true ∧
    listFieldsHandler (.ok (Json.obj [("status", Json.num 404)])) =
      .response 200 (.fields (Fields.downstreamJson
        (Fields.fromUpstreamJson (Json.obj [("fields", Json.arr [])])))) :=
  ⟨rfl, (c7_fields_route_404_is_empty_fields
    (Json.obj [("status", Json.num 404)])).1 rfl⟩

/-- C8: an error recognized by `isEsError` is translated into a response
with the error's status code and a body carrying its message; an
unrecognized error is rethrown unhandled. -/
theorem c8_fields_route_error_translation (e : EsClientError) :
    (isEsError e = true →
      listFieldsHandler (.thrown e) =
        .response e.statusCode (.errorMessage e.message)) ∧
    (isEsError e = false →
      listFieldsHandler (.thrown e) = .rethrown e) := by
  constructor <;> intro h <;> simp [listFieldsHandler, h]

/-- C8 witness: a recognized error with status 503 and message
`cluster unavailable` produces exactly that error response. -/
theorem c8_witness :
    isEsError ⟨503, "cluster unavailable", true⟩ = true ∧
    listFieldsHandler (.thrown ⟨503, "cluster unavailable", true⟩) =
      .response 503 (.errorMessage "cluster unavailable") :=
  ⟨rfl, (c8_fields_route_error_translation
    ⟨503, "cluster unavailable", true⟩).1 rfl⟩

end Watcher

namespace Workpad

/-- C9: when the requested id matches the current workpad, a page parameter
that does not parse as an integer causes a redirect to `loadWorkpad` with the
current id and the zero-based page index plus 1, with no dispatch; a parsed
page dispatches `gotoPage (page - 1)` exactly when `page - 1` differs from
the current page index, and dispatches nothing when they are equal. -/
theorem c9_load_workpad_page_canonicalization
    (fetched : Option FetchedWorkpad) (pageParam : Option String)
    (current : WorkpadState) :
    (parseInt10 pageParam = none →
      loadWorkpadAction fetched current.id pageParam current =
        ([], NavResult.redirectLoadWorkpad current.id (current.page + 1))) ∧
    (∀ n : Int, parseInt10 pageParam = some n →
      (n - 1 ≠ current.page →
        loadWorkpadAction fetched current.id pageParam current =
          ([Dispatch.gotoPage (n - 1)], NavResult.completed)) ∧
      (n - 1 = current.page →
        loadWorkpadAction fetched current.id pageParam current =
          ([], NavResult.completed))) := by
  have hid : ¬current.id ≠ current.id := fun h => h rfl
  constructor
  · intro h
    simp [loadWorkpadAction, hid, h]
  · intro n h
    constructor <;> intro h2 <;> simp [loadWorkpadAction, hid, h, h2]

/-- C9 witness: a current workpad on zero-based page index 2 and a URL with
no page segment redirect to page 3 of the same workpad. -/
theorem c9_witness :
    parseInt10 none = none ∧
    loadWorkpadAction none "w1" none ⟨"w1", 2⟩ =
      ([], NavResult.redirectLoadWorkpad "w1" 3) :=
  ⟨rfl, (c9_load_workpad_page_canonicalization none none ⟨"w1", 2⟩).1 rfl⟩

end Workpad
